import Mathlib

/-!
Verification of the frame cache and background-loading coordinator of
`src/source/videoHandler.cpp` (YUView).

The handler state is embedded shallowly: `QImage` becomes `Option Nat`
(`none` is the null image), the frame cache `QMap<int, QImage>` becomes an
association list with unique keys, the in-flight registry
`QMap<int, QMutex*>` becomes the list of registered indices, and every
externally visible effect (Qt signal emission, cache or registry access,
latch operation, painting) is recorded in an event trace.  The external
producer that answers `signalRequestFrame` is a parameter
`producer : Int -> Bool -> Option Image`; `some img` means the producer
fills the shared buffer `requestedFrame` with `img` and sets
`requestedFrame_idx` to the requested index, `none` means it defers and
leaves both untouched.
-/

/-- A decoded image; `none` models a null `QImage()`. -/
abbrev Image := Option Nat

/-- The externally visible effects of the handler, in program order. -/
inductive Event where
  | updateFrameLimits : Event
  | handlerChanged (redraw : Bool) (second : Bool) : Event
  | requestFrame (idx : Int) (caching : Bool) : Event
  | cachingTimerStart : Event
  | baseControlChanged : Event
  | cacheLookup (idx : Int) : Event
  | cacheInsert (idx : Int) : Event
  | cacheRemove (idx : Int) : Event
  | cacheClear : Event
  | registryLookup (idx : Int) : Event
  | registryInsert (idx : Int) : Event
  | registryRemove (idx : Int) : Event
  | latchAcquire (idx : Int) : Event
  | latchRelease (idx : Int) : Event
  | latchWait (idx : Int) : Event
  | drawImage : Event
  | drawPixelValues (idx : Int) : Event
deriving DecidableEq, Repr

/-- Does the event touch the frame cache (`imageCache`)? -/
def Event.isCacheAccess : Event → Bool
  | .cacheLookup _ | .cacheInsert _ | .cacheRemove _ | .cacheClear => true
  | _ => false

/-- Does the event touch the in-flight registry (`cachingFramesMutices`)
or a per-frame latch? -/
def Event.isRegistryAccess : Event → Bool
  | .registryLookup _ | .registryInsert _ | .registryRemove _
  | .latchAcquire _ | .latchRelease _ | .latchWait _ => true
  | _ => false

/-- Is the event an emission of `signalRequestFrame` (a decode request)? -/
def Event.isRequestFrame : Event → Bool
  | .requestFrame _ _ => true
  | _ => false

/-- Is the event an emission of `signalHandlerChanged`? -/
def Event.isHandlerChanged : Event → Bool
  | .handlerChanged _ _ => true
  | _ => false

/-- `QMap::contains`. -/
def mapContains (m : List (Int × Image)) (k : Int) : Bool :=
  m.any (fun p => p.1 == k)

/-- `QMap::operator[]` as a partial lookup. -/
def mapLookup (m : List (Int × Image)) (k : Int) : Option Image :=
  (m.find? (fun p => p.1 == k)).map (fun p => p.2)

/-- `QMap::insert` (overwrites any existing entry for the key). -/
def mapInsert (m : List (Int × Image)) (k : Int) (v : Image) : List (Int × Image) :=
  (k, v) :: m.filter (fun p => !(p.1 == k))

/-- `QMap::remove`. -/
def mapRemove (m : List (Int × Image)) (k : Int) : List (Int × Image) :=
  m.filter (fun p => !(p.1 == k))

/-- The mutable state of one `videoHandler` instance. -/
structure VHState where
  imageCache : List (Int × Image)
  cachingFramesMutices : List Int
  currentImage : Image
  currentImageIdx : Int
  currentImage_frameIndex : Int
  requestedFrame : Image
  requestedFrame_idx : Int
  loadingInBackground : Bool
deriving DecidableEq, Repr

/-- The producer answering `signalRequestFrame(idx, caching)`: `some img`
fills the shared buffer and sets `requestedFrame_idx` to `idx`, `none`
defers and changes nothing. -/
abbrev Producer := Int → Bool → Option Image

/-- Effect of emitting `signalRequestFrame` on the shared decode buffer. -/
def applyProducer (p : Producer) (s : VHState) (idx : Int) (caching : Bool) : VHState :=
  match p idx caching with
  | some img => { s with requestedFrame := img, requestedFrame_idx := idx }
  | none => s

namespace videoHandler

/-- Handler construction (`videoHandler::videoHandler`): empty cache and
registry, invalid current frame, nothing requested. -/
def initState : VHState :=
  { imageCache := []
    cachingFramesMutices := []
    currentImage := none
    currentImageIdx := -1
    currentImage_frameIndex := -1
    requestedFrame := none
    requestedFrame_idx := -1
    loadingInBackground := false }

/-- `videoHandler::makeCachedFrameCurrent`: promote a cached frame into
the current-frame slot; reports whether the frame was found. -/
def makeCachedFrameCurrent (s : VHState) (frameIdx : Int) : VHState × Bool × List Event :=
  match mapLookup s.imageCache frameIdx with
  | some img =>
      ({ s with currentImage := img, currentImageIdx := frameIdx }, true,
        [Event.cacheLookup frameIdx])
  | none => (s, false, [Event.cacheLookup frameIdx])

/-- `videoHandler::isInCache`. -/
def isInCache (s : VHState) (idx : Int) : Bool :=
  mapContains s.imageCache idx

/-- `videoHandler::loadFrame`: request a foreground decode unless the
shared buffer already holds the frame; promote the buffer into the
current-frame slot only when `requestedFrame_idx` matches. -/
def loadFrame (p : Producer) (s : VHState) (frameIndex : Int) : VHState × List Event :=
  if s.requestedFrame_idx ≠ frameIndex then
    let s1 := applyProducer p s frameIndex false
    if s1.requestedFrame_idx ≠ frameIndex then
      -- Loading failed (or is being performed in the background)
      (s1, [Event.requestFrame frameIndex false])
    else
      ({ s1 with currentImage := s1.requestedFrame, currentImageIdx := frameIndex },
        [Event.requestFrame frameIndex false])
  else
    ({ s with currentImage := s.requestedFrame, currentImageIdx := frameIndex }, [])

/-- `videoHandler::loadFrameForCaching`: request a decode for the cache;
returns the decoded image, or the null image when the producer deferred. -/
def loadFrameForCaching (p : Producer) (s : VHState) (frameIndex : Int) :
    VHState × Image × List Event :=
  if (applyProducer p s frameIndex true).requestedFrame_idx ≠ frameIndex then
    (applyProducer p s frameIndex true, none, [Event.requestFrame frameIndex true])
  else
    (applyProducer p s frameIndex true, (applyProducer p s frameIndex true).requestedFrame,
      [Event.requestFrame frameIndex true])

/-- `videoHandler::cacheFrame`: background caching of one frame.  Returns
early when the frame is cached or in flight; otherwise registers a held
latch, decodes, inserts a non-null result into the cache, releases the
latch, deregisters, and arms the debounce notifier. -/
def cacheFrame (p : Producer) (s : VHState) (frameIdx : Int) : VHState × List Event :=
  if isInCache s frameIdx then
    -- No need to add it again
    (s, [Event.cacheLookup frameIdx])
  else if s.cachingFramesMutices.contains frameIdx then
    -- A background task is already caching this frame
    (s, [Event.cacheLookup frameIdx, Event.registryLookup frameIdx])
  else
    match loadFrameForCaching p
        { s with cachingFramesMutices := frameIdx :: s.cachingFramesMutices } frameIdx with
    | (s2, cacheImage, evs2) =>
      match (if cacheImage.isSome then
              ({ s2 with imageCache := mapInsert s2.imageCache frameIdx cacheImage },
                [Event.cacheInsert frameIdx])
             else (s2, ([] : List Event))) with
      | (s3, evs3) =>
        ({ s3 with cachingFramesMutices := s3.cachingFramesMutices.erase frameIdx },
          [Event.cacheLookup frameIdx, Event.registryLookup frameIdx,
            Event.latchAcquire frameIdx, Event.registryInsert frameIdx]
          ++ evs2 ++ evs3
          ++ [Event.latchRelease frameIdx, Event.registryRemove frameIdx,
            Event.cachingTimerStart])

/-- `videoHandler::drawFrame`.  The latch wait in the in-flight branch
blocks until the caching worker releases the latch; `env` is the shared
state as left behind by that worker when the wait returns (the
interleaved two-thread execution is modelled separately below). -/
def drawFrame (p : Producer) (env : VHState → VHState) (s : VHState)
    (frameIdx : Int) (zoomFactor : ℚ) : VHState × List Event :=
  let r1 :=
    if frameIdx ≠ s.currentImageIdx then
      let rA := makeCachedFrameCurrent s frameIdx
      if rA.2.1 then (rA.1, rA.2.2)
      else
        if rA.1.cachingFramesMutices.contains frameIdx then
          -- Wait for the caching thread, then fetch from the cache
          let sB := env rA.1
          let rC := makeCachedFrameCurrent sB frameIdx
          (rC.1,
            rA.2.2 ++ [Event.registryLookup frameIdx, Event.latchWait frameIdx] ++ rC.2.2)
        else
          let rB := loadFrame p rA.1 frameIdx
          (rB.1, rA.2.2 ++ [Event.registryLookup frameIdx] ++ rB.2)
    else (s, [])
  let s2 := { r1.1 with loadingInBackground := decide (r1.1.currentImageIdx ≠ frameIdx) }
  (s2,
    r1.2 ++ [Event.drawImage]
      ++ (if (64 : ℚ) ≤ zoomFactor then [Event.drawPixelValues frameIdx] else []))

/-- `videoHandler::clearCache`. -/
def clearCache (s : VHState) : VHState × List Event :=
  ({ s with imageCache := [] }, [Event.cacheClear])

/-- `videoHandler::removefromCache`: `-1` clears the whole cache, any
other index removes that entry; always re-arms the debounce notifier. -/
def removefromCache (s : VHState) (idx : Int) : VHState × List Event :=
  if idx = -1 then
    ({ s with imageCache := [] }, [Event.cacheClear, Event.cachingTimerStart])
  else
    ({ s with imageCache := mapRemove s.imageCache idx },
      [Event.cacheRemove idx, Event.cachingTimerStart])

/-- `videoHandler::invalidateAllBuffers`. -/
def invalidateAllBuffers (s : VHState) : VHState × List Event :=
  let s1 := { s with
    currentImageIdx := -1
    currentImage_frameIndex := -1
    currentImage := (none : Image)
    requestedFrame_idx := -1 }
  let r2 := clearCache s1
  (r2.1, [Event.updateFrameLimits] ++ r2.2)

/-- `videoHandler::slotVideoControlChanged`: base-class handling, frame
limits update, current index invalidation, cache clear, and a
`signalHandlerChanged(true, true)` emission. -/
def slotVideoControlChanged (s : VHState) : VHState × List Event :=
  let s1 := { s with currentImageIdx := (-1 : Int) }
  let r2 := clearCache s1
  (r2.1,
    [Event.baseControlChanged, Event.updateFrameLimits]
      ++ r2.2 ++ [Event.handlerChanged true true])

/-- The debounce timer of the change notifier (`cachingTimer`). -/
structure TimerState where
  active : Bool
deriving DecidableEq, Repr

/-- The slot connected to `cachingTimerStart` in the constructor: start
the one-shot 1 s timer only when it is not already active. -/
def cachingTimerStartSlot (t : TimerState) : TimerState :=
  if t.active then t else { active := true }

/-- `videoHandler::timerEvent` for the caching timer: stop the timer and
emit `signalHandlerChanged(false, false)`. -/
def timerEvent (_t : TimerState) : TimerState × List Event :=
  (({ active := false } : TimerState), [Event.handlerChanged false false])

/-- Deliver the queued `cachingTimerStart` emissions of an event list to
the timer slot. -/
def processTimerStarts (t : TimerState) (evs : List Event) : TimerState :=
  evs.foldl (fun tt e => if e = Event.cachingTimerStart then cachingTimerStartSlot tt else tt) t

/-- Run a sequence of `cacheFrame` calls, delivering each call's
`cachingTimerStart` emissions to the timer slot. -/
def runCacheSeq (p : Producer) : VHState → TimerState → List Int →
    VHState × TimerState × List Event
  | s, t, [] => (s, t, [])
  | s, t, i :: rest =>
    let r1 := cacheFrame p s i
    let t1 := processTimerStarts t r1.2
    let r2 := runCacheSeq p r1.1 t1 rest
    (r2.1, r2.2.1, r1.2 ++ r2.2.2)

end videoHandler

/-!
Interleaved two-thread model for the in-flight scenario: a caching worker
is inside `cacheFrame i` (it has registered its held latch and is about
to drive the producer) while the renderer enters `drawFrame i` with a
stale current frame.  Each labelled point is one atomic step of the
corresponding critical section of the source; a scheduler word
(`List Bool`, `true` = worker) chooses the interleaving.  The producer is
taken to decode frame `i` successfully to the image `some n`.
-/

namespace Interleave

/-- Worker program counter inside `cacheFrame i`, starting just after the
latch was registered (lines 169-179 already done). -/
inductive WPC where
  | req : WPC        -- acquire the request gate, emit the request
  | copy : WPC       -- copy the shared buffer out, release the gate
  | insert : WPC     -- insert the decoded image into the cache
  | release : WPC    -- release the per-frame latch
  | deregister : WPC -- take the registry entry out
  | done : WPC
deriving DecidableEq, Repr

/-- Renderer program counter inside `drawFrame i` (entered with
`currentImageIdx ≠ i`). -/
inductive RPC where
  | checkCache : RPC -- makeCachedFrameCurrent, first attempt
  | checkReg : RPC   -- registry lookup under the registry mutex
  | wait : RPC       -- blocked on the worker's latch
  | promote2 : RPC   -- makeCachedFrameCurrent, after the wait
  | load : RPC       -- foreground loadFrame
  | setFlag : RPC    -- compute loadingInBackground, blit
  | done : RPC
deriving DecidableEq, Repr

/-- Shared state of the two-thread system plus both program counters. -/
structure Sys where
  cache : List (Int × Image)
  registry : List Int
  latchHeld : Bool
  gate : Bool
  regMutexR : Bool
  requestedFrame : Image
  requestedFrame_idx : Int
  cacheLocal : Image
  currentImage : Image
  currentImageIdx : Int
  loadingInBackground : Bool
  wpc : WPC
  rpc : RPC
  rTrace : List Event
deriving DecidableEq, Repr

/-- One step of the caching worker (`cacheFrame i`, lines 182-199); the
producer answers the caching request with `some n`. -/
def stepW (i : Int) (n : Nat) (s : Sys) : Sys :=
  match s.wpc with
  | .req =>
      if s.gate then s
      else { s with gate := true, requestedFrame := some n, requestedFrame_idx := i,
                    wpc := .copy }
  | .copy =>
      { s with cacheLocal := (if s.requestedFrame_idx = i then s.requestedFrame else none),
               gate := false, wpc := .insert }
  | .insert =>
      if s.cacheLocal.isSome then
        { s with cache := mapInsert s.cache i s.cacheLocal, wpc := .release }
      else { s with wpc := .release }
  | .release => { s with latchHeld := false, wpc := .deregister }
  | .deregister =>
      if s.regMutexR then s
      else { s with registry := s.registry.erase i, wpc := .done }
  | .done => s

/-- One step of the renderer (`drawFrame i`, lines 70-99).  The `wait`
step is enabled only once the latch is free; the registry mutex is held
from the successful registry check until the wait returns, as in the
source. -/
def stepR (i : Int) (s : Sys) : Sys :=
  match s.rpc with
  | .checkCache =>
      match mapLookup s.cache i with
      | some img =>
          { s with currentImage := img, currentImageIdx := i, rpc := .setFlag,
                   rTrace := s.rTrace ++ [Event.cacheLookup i] }
      | none => { s with rpc := .checkReg, rTrace := s.rTrace ++ [Event.cacheLookup i] }
  | .checkReg =>
      if s.registry.contains i then
        { s with regMutexR := true, rpc := .wait,
                 rTrace := s.rTrace ++ [Event.registryLookup i] }
      else { s with rpc := .load, rTrace := s.rTrace ++ [Event.registryLookup i] }
  | .wait =>
      if s.latchHeld then s
      else { s with regMutexR := false, rpc := .promote2,
                    rTrace := s.rTrace ++ [Event.latchWait i] }
  | .promote2 =>
      match mapLookup s.cache i with
      | some img =>
          { s with currentImage := img, currentImageIdx := i, rpc := .setFlag,
                   rTrace := s.rTrace ++ [Event.cacheLookup i] }
      | none => { s with rpc := .setFlag, rTrace := s.rTrace ++ [Event.cacheLookup i] }
  | .load =>
      if s.requestedFrame_idx = i then
        -- the shared buffer already holds frame i; promote without a request
        { s with currentImage := s.requestedFrame, currentImageIdx := i, rpc := .setFlag }
      else
        -- foreground request (the producer defers in this model; the
        -- sequential `loadFrame` above covers this path in full)
        { s with rpc := .setFlag, rTrace := s.rTrace ++ [Event.requestFrame i false] }
  | .setFlag =>
      { s with loadingInBackground := decide (s.currentImageIdx ≠ i), rpc := .done,
               rTrace := s.rTrace ++ [Event.drawImage] }
  | .done => s

/-- One scheduler step: `true` runs the worker, `false` the renderer. -/
def step (i : Int) (n : Nat) (b : Bool) (s : Sys) : Sys :=
  if b then stepW i n s else stepR i s

/-- Run a whole scheduler word. -/
def runSched (i : Int) (n : Nat) : List Bool → Sys → Sys
  | [], s => s
  | b :: rest, s => runSched i n rest (step i n b s)

/-- Initial configuration: the worker holds the latch registered for `i`,
the renderer has just entered `drawFrame i` with an invalid current
frame, nothing is cached. -/
def initSys (i : Int) : Sys :=
  { cache := []
    registry := [i]
    latchHeld := true
    gate := false
    regMutexR := false
    requestedFrame := none
    requestedFrame_idx := -1
    cacheLocal := none
    currentImage := none
    currentImageIdx := -1
    loadingInBackground := false
    wpc := .req
    rpc := .checkCache
    rTrace := [] }

/-- Worker-indexed part of the inductive invariant. -/
def wShape (i : Int) (n : Nat) (s : Sys) : Prop :=
  match s.wpc with
  | .req =>
      s.gate = false ∧ s.latchHeld = true ∧ s.registry = [i] ∧
        mapContains s.cache i = false
  | .copy =>
      s.gate = true ∧ s.latchHeld = true ∧ s.registry = [i] ∧
        mapContains s.cache i = false ∧
        s.requestedFrame_idx = i ∧ s.requestedFrame = some n
  | .insert =>
      s.gate = false ∧ s.latchHeld = true ∧ s.registry = [i] ∧
        mapContains s.cache i = false ∧
        s.requestedFrame_idx = i ∧ s.requestedFrame = some n ∧ s.cacheLocal = some n
  | .release =>
      s.gate = false ∧ s.latchHeld = true ∧ s.registry = [i] ∧
        mapLookup s.cache i = some (some n) ∧
        s.requestedFrame_idx = i ∧ s.requestedFrame = some n
  | .deregister =>
      s.gate = false ∧ s.latchHeld = false ∧ s.registry = [i] ∧
        mapLookup s.cache i = some (some n) ∧
        s.requestedFrame_idx = i ∧ s.requestedFrame = some n
  | .done =>
      s.gate = false ∧ s.latchHeld = false ∧ s.registry = [] ∧
        mapLookup s.cache i = some (some n) ∧
        s.requestedFrame_idx = i ∧ s.requestedFrame = some n

/-- Renderer-indexed part of the inductive invariant. -/
def rShape (i : Int) (n : Nat) (s : Sys) : Prop :=
  match s.rpc with
  | .checkCache => True
  | .checkReg => True
  | .wait => True
  | .promote2 => mapLookup s.cache i = some (some n)
  | .load => s.wpc = WPC.done
  | .setFlag => s.currentImageIdx = i ∧ s.currentImage = some n
  | .done =>
      s.currentImageIdx = i ∧ s.currentImage = some n ∧ s.loadingInBackground = false

/-- The inductive invariant of the two-thread system. -/
def Inv (i : Int) (n : Nat) (s : Sys) : Prop :=
  wShape i n s ∧ rShape i n s ∧
    s.regMutexR = decide (s.rpc = RPC.wait) ∧
    (∀ e ∈ s.rTrace, e.isRequestFrame = false) ∧
    (s.cache = [] ∨ s.cache = [(i, some n)])

end Interleave

/-- A producer that always decodes successfully to the image `some 7`. -/
def pOk : Producer := fun _ _ => some (some 7)

/-- A producer that always defers. -/
def pDefer : Producer := fun _ _ => none

/-- A handler state with frames 2 and 3 cached. -/
def sCached : VHState :=
  { videoHandler.initState with imageCache := [(2, some 5), (3, some 6)] }

/-- A handler state whose current frame is 3. -/
def sCurrent3 : VHState :=
  { videoHandler.initState with currentImage := some 8, currentImageIdx := 3 }

/-- A schedule in which the renderer finds the worker in flight, waits on
the latch, and then promotes the frame from the cache. -/
def schedWait : List Bool :=
  [false, false, true, true, true, true, false, true, false, false]

/-- A schedule in which the worker finishes between the renderer's cache
miss and its registry check, so the renderer never touches the latch. -/
def schedSkip : List Bool :=
  [false, true, true, true, true, true, false, false, false]

/-!  Theorems.  Small facts about the association-list cache first. -/

theorem mapContains_false_iff_lookup (m : List (Int × Image)) (k : Int) :
    mapContains m k = false ↔ mapLookup m k = none := by
  simp [mapContains, mapLookup, List.any_eq_true, Option.map_eq_none',
    List.find?_eq_none]

theorem mapLookup_insert_self (m : List (Int × Image)) (k : Int) (v : Image) :
    mapLookup (mapInsert m k v) k = some v := by
  simp [mapLookup, mapInsert, List.find?_cons_of_pos]

theorem mapContains_insert_self (m : List (Int × Image)) (k : Int) (v : Image) :
    mapContains (mapInsert m k v) k = true := by
  simp [mapContains, mapInsert]

theorem mapContains_remove_self (m : List (Int × Image)) (k : Int) :
    mapContains (mapRemove m k) k = false := by
  simp [mapContains, mapRemove, List.any_eq_true, List.mem_filter]

theorem mapLookup_remove_ne (m : List (Int × Image)) (k j : Int) (h : j ≠ k) :
    mapLookup (mapRemove m k) j = mapLookup m j := by
  induction m with
  | nil => rfl
  | cons hd tl ih =>
    by_cases hk : hd.1 = k
    · have hj1 : (hd.1 == j) = false := by
        simp [hk]; exact fun hh => h hh.symm
      have e1 : mapRemove (hd :: tl) k = mapRemove tl k := by
        simp [mapRemove, List.filter_cons, hk]
      have e2 : mapLookup (hd :: tl) j = mapLookup tl j := by
        simp [mapLookup, List.find?_cons, hj1]
      rw [e1, e2]; exact ih
    · have e1 : mapRemove (hd :: tl) k = hd :: mapRemove tl k := by
        simp [mapRemove, List.filter_cons, hk]
      rw [e1]
      by_cases hj2 : hd.1 = j
      · simp [mapLookup, List.find?_cons, hj2]
      · have hj1 : (hd.1 == j) = false := by simp [hj2]
        have := ih
        simp only [mapLookup, List.find?_cons, hj1] at this ⊢
        exact this

namespace videoHandler

/-- C3: for every handler state, after `invalidateAllBuffers` returns the
frame cache is empty, the current-frame slot holds the empty image at
index -1, `requestedFrame_idx` is -1, and `signalUpdateFrameLimits` has
been emitted. -/
theorem invalidateAllBuffers_spec (s : VHState) :
    (invalidateAllBuffers s).1.imageCache = []
  ∧ (invalidateAllBuffers s).1.currentImage = none
  ∧ (invalidateAllBuffers s).1.currentImageIdx = -1
  ∧ (invalidateAllBuffers s).1.requestedFrame_idx = -1
  ∧ Event.updateFrameLimits ∈ (invalidateAllBuffers s).2 := by
  simp [invalidateAllBuffers, clearCache]

/-- C10: `removefromCache` unconditionally arms the debounce notifier
after every call (any index, cached or not, including the clear-all case
-1); the armed timer is active and its expiry emits the debounced
`signalHandlerChanged(false, false)`. -/
theorem removefromCache_arms_notifier (s : VHState) (idx : Int) (t : TimerState) :
    Event.cachingTimerStart ∈ (removefromCache s idx).2
  ∧ (cachingTimerStartSlot t).active = true
  ∧ (timerEvent t).2 = [Event.handlerChanged false false] := by
  refine ⟨?_, ?_, rfl⟩
  · unfold removefromCache; split <;> simp
  · by_cases h : t.active <;> simp [cachingTimerStartSlot, h]

/-- C2 (amended): `slotVideoControlChanged` emits
`signalUpdateFrameLimits`, invalidates the current frame index, clears
the frame cache and emits `signalHandlerChanged(true, true)`; unlike
`invalidateAllBuffers` it leaves `currentImage`,
`currentImage_frameIndex` and `requestedFrame_idx` unchanged. -/
theorem slotVideoControlChanged_spec (s : VHState) :
    (slotVideoControlChanged s).1.currentImageIdx = -1
  ∧ (slotVideoControlChanged s).1.imageCache = []
  ∧ (slotVideoControlChanged s).1.requestedFrame_idx = s.requestedFrame_idx
  ∧ (slotVideoControlChanged s).1.currentImage = s.currentImage
  ∧ (slotVideoControlChanged s).1.currentImage_frameIndex = s.currentImage_frameIndex
  ∧ Event.updateFrameLimits ∈ (slotVideoControlChanged s).2
  ∧ Event.handlerChanged true true ∈ (slotVideoControlChanged s).2 := by
  simp [slotVideoControlChanged, clearCache]

/-- C2 counterexample: `slotVideoControlChanged` does not perform
everything `invalidateAllBuffers` does — on a state with
`requestedFrame_idx = 5` it leaves the field at 5, while
`invalidateAllBuffers` resets it to -1. -/
theorem slotVideoControlChanged_not_superset :
    (slotVideoControlChanged { initState with requestedFrame_idx := 5 }).1.requestedFrame_idx ≠ -1
  ∧ (invalidateAllBuffers { initState with requestedFrame_idx := 5 }).1.requestedFrame_idx = -1 := by
  decide

/-- C6: for every index `idx ≥ 0`, after `removefromCache idx` the index
is no longer in the cache while every other cached entry is unchanged;
`removefromCache (-1)` empties the whole cache. -/
theorem removefromCache_spec (s : VHState) (idx : Int) (h : 0 ≤ idx) :
    isInCache (removefromCache s idx).1 idx = false
  ∧ (∀ j, j ≠ idx →
      mapLookup (removefromCache s idx).1.imageCache j = mapLookup s.imageCache j)
  ∧ (removefromCache s (-1)).1.imageCache = [] := by
  have hne : idx ≠ -1 := by omega
  refine ⟨?_, ?_, by simp [removefromCache]⟩
  · simp [removefromCache, hne, isInCache, mapContains_remove_self]
  · intro j hj
    simp [removefromCache, hne, mapLookup_remove_ne _ _ _ hj]

/-- Witness for C6 at index 2 of a state with frames 2 and 3 cached. -/
theorem removefromCache_spec_witness :
    (0 : Int) ≤ 2
  ∧ isInCache (removefromCache sCached 2).1 2 = false
  ∧ mapLookup (removefromCache sCached 2).1.imageCache 3 = mapLookup sCached.imageCache 3 :=
  ⟨by decide, (removefromCache_spec sCached 2 (by decide)).1,
    (removefromCache_spec sCached 2 (by decide)).2.1 3 (by decide)⟩

/-- The producer leaves everything except the shared decode buffer alone. -/
theorem applyProducer_fields (p : Producer) (s : VHState) (i : Int) (c : Bool) :
    (applyProducer p s i c).currentImage = s.currentImage
  ∧ (applyProducer p s i c).currentImageIdx = s.currentImageIdx
  ∧ (applyProducer p s i c).imageCache = s.imageCache
  ∧ (applyProducer p s i c).cachingFramesMutices = s.cachingFramesMutices := by
  unfold applyProducer; cases p i c <;> simp

/-- Reduction of `cacheFrame` on a fresh index with a successful non-null
decode: the image is inserted, the registry is restored, and the full
event trace is produced. -/
theorem cacheFrame_success_eq (p : Producer) (s : VHState) (i : Int) (img : Image)
    (h1 : mapContains s.imageCache i = false)
    (h2 : s.cachingFramesMutices.contains i = false)
    (h3 : p i true = some img) (h4 : img.isSome = true) :
    cacheFrame p s i =
      ({ s with imageCache := mapInsert s.imageCache i img,
                requestedFrame := img, requestedFrame_idx := i },
        [Event.cacheLookup i, Event.registryLookup i, Event.latchAcquire i,
          Event.registryInsert i, Event.requestFrame i true, Event.cacheInsert i,
          Event.latchRelease i, Event.registryRemove i, Event.cachingTimerStart]) := by
  have h2' : i ∉ s.cachingFramesMutices := by simpa using h2
  simp [cacheFrame, isInCache, h1, h2', loadFrameForCaching, applyProducer, h3, h4,
    List.erase_cons_head]

/-- Exactly one cache entry carries the key that was just inserted. -/
theorem countP_mapInsert_self (m : List (Int × Image)) (k : Int) (v : Image) :
    (mapInsert m k v).countP (fun q => q.1 == k) = 1 := by
  have hz : (m.filter (fun p => !(p.1 == k))).countP (fun q => q.1 == k) = 0 := by
    rw [List.countP_eq_zero]
    intro a ha
    have := (List.mem_filter.mp ha).2
    simpa using this
  simp [mapInsert, List.countP_cons, hz]

/-- C4: `cacheFrame` is idempotent.  If the index is already cached, or
already registered as in flight, the call returns at once with no decode
request and no cache mutation; and after one successful decode a repeated
call leaves exactly one cache entry for the index and exactly one decode
request across both calls. -/
theorem cacheFrame_idempotent (p : Producer) (s : VHState) (i : Int) (img : Image)
    (h1 : mapContains s.imageCache i = false)
    (h2 : s.cachingFramesMutices.contains i = false)
    (h3 : p i true = some img) (h4 : img.isSome = true) :
    (∀ s1 : VHState, mapContains s1.imageCache i = true →
        cacheFrame p s1 i = (s1, [Event.cacheLookup i]))
  ∧ (∀ s1 : VHState, mapContains s1.imageCache i = false →
        s1.cachingFramesMutices.contains i = true →
        cacheFrame p s1 i = (s1, [Event.cacheLookup i, Event.registryLookup i]))
  ∧ (cacheFrame p (cacheFrame p s i).1 i).1 = (cacheFrame p s i).1
  ∧ (cacheFrame p s i).1.imageCache.countP (fun q => q.1 == i) = 1
  ∧ ((cacheFrame p s i).2 ++ (cacheFrame p (cacheFrame p s i).1 i).2).countP
      Event.isRequestFrame = 1 := by
  have hhit : ∀ s1 : VHState, mapContains s1.imageCache i = true →
      cacheFrame p s1 i = (s1, [Event.cacheLookup i]) := by
    intro s1 hc
    unfold cacheFrame
    rw [if_pos]
    exact hc
  have hflight : ∀ s1 : VHState, mapContains s1.imageCache i = false →
      s1.cachingFramesMutices.contains i = true →
      cacheFrame p s1 i = (s1, [Event.cacheLookup i, Event.registryLookup i]) := by
    intro s1 hc hf
    unfold cacheFrame
    rw [if_neg, if_pos]
    · exact hf
    · simp [isInCache, hc]
  have hrun := cacheFrame_success_eq p s i img h1 h2 h3 h4
  have hsecond : cacheFrame p (cacheFrame p s i).1 i = ((cacheFrame p s i).1,
      [Event.cacheLookup i]) := by
    apply hhit
    rw [hrun]
    exact mapContains_insert_self s.imageCache i img
  refine ⟨hhit, hflight, by rw [hsecond], ?_, ?_⟩
  · rw [hrun]
    exact countP_mapInsert_self s.imageCache i img
  · rw [hsecond, hrun]
    simp [List.countP_cons, List.countP_append, Event.isRequestFrame]

/-- Witness for C4 at index 4 starting from the initial state. -/
theorem cacheFrame_idempotent_witness :
    mapContains initState.imageCache 4 = false
  ∧ (cacheFrame pOk (cacheFrame pOk initState 4).1 4).1 = (cacheFrame pOk initState 4).1
  ∧ (cacheFrame pOk initState 4).1.imageCache.countP (fun q => q.1 == 4) = 1
  ∧ ((cacheFrame pOk initState 4).2 ++ (cacheFrame pOk (cacheFrame pOk initState 4).1 4).2).countP
      Event.isRequestFrame = 1 :=
  ⟨by decide,
    (cacheFrame_idempotent pOk initState 4 (some 7) (by decide) (by decide) (by decide)
      (by decide)).2.2.1,
    (cacheFrame_idempotent pOk initState 4 (some 7) (by decide) (by decide) (by decide)
      (by decide)).2.2.2.1,
    (cacheFrame_idempotent pOk initState 4 (some 7) (by decide) (by decide) (by decide)
      (by decide)).2.2.2.2⟩

/-- C5: when the producer defers a foreground request (after the request
the shared index still differs from the requested frame), `loadFrame`
returns with the current-frame slot untouched, and a `drawFrame` in that
situation sets `loadingInBackground` to true. -/
theorem loadFrame_deferred (p : Producer) (env : VHState → VHState) (s : VHState)
    (i : Int) (z : ℚ)
    (hpre : s.requestedFrame_idx ≠ i)
    (hdef : (applyProducer p s i false).requestedFrame_idx ≠ i) :
    (loadFrame p s i).1.currentImage = s.currentImage
  ∧ (loadFrame p s i).1.currentImageIdx = s.currentImageIdx
  ∧ (s.currentImageIdx ≠ i → mapContains s.imageCache i = false →
      s.cachingFramesMutices.contains i = false →
      (drawFrame p env s i z).1.loadingInBackground = true) := by
  have hload : loadFrame p s i =
      (applyProducer p s i false, [Event.requestFrame i false]) := by
    unfold loadFrame
    rw [if_pos hpre, if_pos hdef]
  refine ⟨by rw [hload]; exact (applyProducer_fields p s i false).1,
    by rw [hload]; exact (applyProducer_fields p s i false).2.1, ?_⟩
  intro hcur hc hf
  have hlook : mapLookup s.imageCache i = none := (mapContains_false_iff_lookup _ _).mp hc
  have hmk : makeCachedFrameCurrent s i = (s, false, [Event.cacheLookup i]) := by
    unfold makeCachedFrameCurrent
    rw [hlook]
  unfold drawFrame
  rw [if_pos (Ne.symm hcur), hmk]
  simp only [hf, Bool.false_eq_true, if_false, hload]
  have := (applyProducer_fields p s i false).2.1
  simp [this, hcur]

/-- Witness for C5 at frame 3 with an always-deferring producer. -/
theorem loadFrame_deferred_witness :
    initState.requestedFrame_idx ≠ 3
  ∧ (loadFrame pDefer initState 3).1.currentImageIdx = initState.currentImageIdx
  ∧ (drawFrame pDefer id initState 3 1).1.loadingInBackground = true :=
  ⟨by decide,
    (loadFrame_deferred pDefer id initState 3 1 (by decide) (by decide)).2.1,
    (loadFrame_deferred pDefer id initState 3 1 (by decide) (by decide)).2.2
      (by decide) (by decide) (by decide)⟩

/-- C7: a `drawFrame` whose frame index already equals the current-frame
index performs no cache access, no registry or latch access and no decode
request, leaves the current-frame slot unchanged, clears
`loadingInBackground` and blits the current image. -/
theorem drawFrame_currentFrame_noop (p : Producer) (env : VHState → VHState)
    (s : VHState) (i : Int) (z : ℚ) (h : i = s.currentImageIdx) :
    (drawFrame p env s i z).1.currentImage = s.currentImage
  ∧ (drawFrame p env s i z).1.currentImageIdx = s.currentImageIdx
  ∧ (drawFrame p env s i z).1.loadingInBackground = false
  ∧ (∀ e ∈ (drawFrame p env s i z).2,
      e.isCacheAccess = false ∧ e.isRegistryAccess = false ∧ e.isRequestFrame = false)
  ∧ Event.drawImage ∈ (drawFrame p env s i z).2 := by
  subst h
  have hrun : drawFrame p env s s.currentImageIdx z =
      ({ s with loadingInBackground := false },
        [Event.drawImage]
          ++ (if (64 : ℚ) ≤ z then [Event.drawPixelValues s.currentImageIdx] else [])) := by
    unfold drawFrame
    simp
  rw [hrun]
  refine ⟨rfl, rfl, rfl, ?_, by simp⟩
  intro e he
  by_cases hz : (64 : ℚ) ≤ z
  · simp only [hz, if_true, List.mem_append, List.mem_singleton] at he
    rcases he with rfl | rfl
    · exact ⟨rfl, rfl, rfl⟩
    · exact ⟨rfl, rfl, rfl⟩
  · simp only [hz, if_false, List.append_nil, List.mem_singleton] at he
    subst he
    exact ⟨rfl, rfl, rfl⟩

/-- Witness for C7 drawing frame 3 while frame 3 is current. -/
theorem drawFrame_currentFrame_noop_witness :
    (3 : Int) = sCurrent3.currentImageIdx
  ∧ (drawFrame pOk id sCurrent3 3 100).1.loadingInBackground = false
  ∧ Event.drawImage ∈ (drawFrame pOk id sCurrent3 3 100).2 :=
  ⟨by decide, (drawFrame_currentFrame_noop pOk id sCurrent3 3 100 (by decide)).2.2.1,
    (drawFrame_currentFrame_noop pOk id sCurrent3 3 100 (by decide)).2.2.2.2⟩

/-- C8: in a successful `cacheFrame`, the cache insertion happens before
the latch release, which happens before the registry entry is removed;
the final cache holds the decoded frame, so a waiter unblocked by the
latch release finds it. -/
theorem cacheFrame_insert_before_release (p : Producer) (s : VHState) (i : Int)
    (img : Image)
    (h1 : mapContains s.imageCache i = false)
    (h2 : s.cachingFramesMutices.contains i = false)
    (h3 : p i true = some img) (h4 : img.isSome = true) :
    (∃ l1 l2 l3 l4, (cacheFrame p s i).2 =
        l1 ++ [Event.cacheInsert i] ++ l2 ++ [Event.latchRelease i] ++ l3
          ++ [Event.registryRemove i] ++ l4)
  ∧ mapLookup (cacheFrame p s i).1.imageCache i = some img := by
  rw [cacheFrame_success_eq p s i img h1 h2 h3 h4]
  constructor
  · exact ⟨[Event.cacheLookup i, Event.registryLookup i, Event.latchAcquire i,
      Event.registryInsert i, Event.requestFrame i true], [], [],
      [Event.cachingTimerStart], by simp⟩
  · simpa using mapLookup_insert_self s.imageCache i img

/-- The caching load always emits exactly one decode request. -/
theorem loadFrameForCaching_trace (p : Producer) (s : VHState) (i : Int) :
    (loadFrameForCaching p s i).2.2 = [Event.requestFrame i true] := by
  unfold loadFrameForCaching
  split <;> rfl

/-- `cacheFrame` never emits `signalHandlerChanged` itself. -/
theorem cacheFrame_events_no_handlerChanged (p : Producer) (s : VHState) (i : Int) :
    ∀ e ∈ (cacheFrame p s i).2, e.isHandlerChanged = false := by
  intro e he
  unfold cacheFrame at he
  split at he
  · simp only [List.mem_singleton] at he
    subst he; rfl
  · split at he
    · simp at he
      rcases he with rfl | rfl <;> rfl
    · split at he
      next s2 cacheImage evs2 heq =>
        split at he
        next s3 evs3 heq2 =>
          have hevs2 : evs2 = [Event.requestFrame i true] := by
            have h := loadFrameForCaching_trace p
              { s with cachingFramesMutices := i :: s.cachingFramesMutices } i
            rw [heq] at h
            exact h
          have hevs3 : evs3 = [Event.cacheInsert i] ∨ evs3 = [] := by
            split at heq2
            · left; cases heq2; rfl
            · right; cases heq2; rfl
          rcases List.mem_append.mp he with h | h
          · rcases List.mem_append.mp h with h | h
            · rcases List.mem_append.mp h with h | h
              · simp at h
                rcases h with rfl | rfl | rfl | rfl <;> rfl
              · rw [hevs2] at h
                simp at h
                subst h; rfl
            · rcases hevs3 with rfl | rfl
              · simp at h; subst h; rfl
              · cases h
          · simp at h
            rcases h with rfl | rfl | rfl <;> rfl

/-- On a fresh, unregistered index `cacheFrame` arms the debounce
notifier. -/
theorem cacheFrame_emits_timerStart (p : Producer) (s : VHState) (i : Int)
    (h1 : mapContains s.imageCache i = false)
    (h2 : s.cachingFramesMutices.contains i = false) :
    Event.cachingTimerStart ∈ (cacheFrame p s i).2 := by
  have h1' : ¬ isInCache s i = true := by simp [isInCache, h1]
  have h2' : ¬ s.cachingFramesMutices.contains i = true := by rw [h2]; simp
  unfold cacheFrame
  rw [if_neg h1', if_neg h2']
  split
  next s2 cacheImage evs2 heq =>
    split
    next s3 evs3 heq2 => simp

/-- A run of `cacheFrame` calls emits no `signalHandlerChanged`. -/
theorem runCacheSeq_events_no_handlerChanged (p : Producer) (ks : List Int) :
    ∀ (s : VHState) (t : TimerState), ∀ e ∈ (runCacheSeq p s t ks).2.2,
      e.isHandlerChanged = false := by
  induction ks with
  | nil => intro s t e he; cases he
  | cons k rest ih =>
    intro s t e he
    simp only [runCacheSeq, List.mem_append] at he
    rcases he with he | he
    · exact cacheFrame_events_no_handlerChanged p s k e he
    · exact ih _ _ e he

/-- The `cachingTimerStart` slot always leaves the timer armed. -/
theorem cachingTimerStartSlot_active (t : TimerState) :
    (cachingTimerStartSlot t).active = true := by
  unfold cachingTimerStartSlot
  split
  · assumption
  · rfl

/-- Delivering queued timer starts never disarms the timer. -/
theorem processTimerStarts_active_mono (evs : List Event) :
    ∀ t : TimerState, t.active = true → (processTimerStarts t evs).active = true := by
  induction evs with
  | nil => intro t h; exact h
  | cons e rest ih =>
    intro t h
    unfold processTimerStarts at *
    simp only [List.foldl_cons]
    split
    · exact ih _ (cachingTimerStartSlot_active t)
    · exact ih _ h

/-- A delivered `cachingTimerStart` arms the timer. -/
theorem processTimerStarts_active_of_mem (evs : List Event) :
    ∀ t : TimerState, Event.cachingTimerStart ∈ evs →
      (processTimerStarts t evs).active = true := by
  induction evs with
  | nil => intro t h; cases h
  | cons e rest ih =>
    intro t h
    unfold processTimerStarts at *
    simp only [List.foldl_cons]
    rcases List.mem_cons.mp h with rfl | hmem
    · simp only [if_pos rfl]
      exact processTimerStarts_active_mono rest _ (cachingTimerStartSlot_active t)
    · split
      · exact ih _ hmem
      · exact ih _ hmem

/-- A run of `cacheFrame` calls never disarms the timer. -/
theorem runCacheSeq_active_mono (p : Producer) (ks : List Int) :
    ∀ (s : VHState) (t : TimerState), t.active = true →
      (runCacheSeq p s t ks).2.1.active = true := by
  induction ks with
  | nil => intro s t h; exact h
  | cons k rest ih =>
    intro s t h
    exact ih _ _ (processTimerStarts_active_mono _ _ h)

/-- C1 (amended): after a sequence of distinct successful `cacheFrame`
calls the timer is armed; when it expires it stops and exactly one
`signalHandlerChanged` is emitted across the whole run — with arguments
(false, false) — and the timer is only ever started when not already
active. -/
theorem debounced_single_notification (p : Producer) (s : VHState) (t0 : TimerState)
    (k : Int) (ks : List Int)
    (h1 : mapContains s.imageCache k = false)
    (h2 : s.cachingFramesMutices.contains k = false) :
    ((runCacheSeq p s t0 (k :: ks)).2.2
        ++ (timerEvent (runCacheSeq p s t0 (k :: ks)).2.1).2).filter Event.isHandlerChanged
      = [Event.handlerChanged false false]
  ∧ (runCacheSeq p s t0 (k :: ks)).2.1.active = true
  ∧ (timerEvent (runCacheSeq p s t0 (k :: ks)).2.1).1.active = false
  ∧ (∀ t : TimerState, t.active = true → cachingTimerStartSlot t = t) := by
  refine ⟨?_, ?_, rfl, fun t h => by unfold cachingTimerStartSlot; rw [if_pos h]⟩
  · rw [List.filter_append]
    have hnil : ((runCacheSeq p s t0 (k :: ks)).2.2).filter Event.isHandlerChanged = [] := by
      rw [List.filter_eq_nil_iff]
      intro e he
      simp [runCacheSeq_events_no_handlerChanged p (k :: ks) s t0 e he]
    rw [hnil]
    rfl
  · show (runCacheSeq p (cacheFrame p s k).1
        (processTimerStarts t0 (cacheFrame p s k).2) ks).2.1.active = true
    exact runCacheSeq_active_mono p ks _ _
      (processTimerStarts_active_of_mem _ _ (cacheFrame_emits_timerStart p s k h1 h2))

/-- Witness for C1 over the calls `cacheFrame 0; cacheFrame 1; cacheFrame 2`. -/
theorem debounced_single_notification_witness :
    mapContains initState.imageCache 0 = false
  ∧ ((runCacheSeq pOk initState ⟨false⟩ [0, 1, 2]).2.2
        ++ (timerEvent (runCacheSeq pOk initState ⟨false⟩ [0, 1, 2]).2.1).2).filter
          Event.isHandlerChanged = [Event.handlerChanged false false]
  ∧ (runCacheSeq pOk initState ⟨false⟩ [0, 1, 2]).2.1.active = true :=
  ⟨by decide,
    (debounced_single_notification pOk initState ⟨false⟩ 0 [1, 2] (by decide) (by decide)).1,
    (debounced_single_notification pOk initState ⟨false⟩ 0 [1, 2] (by decide) (by decide)).2.1⟩

/-- C1 counterexample: the debounced emission carries the argument pair
(false, false) — `timerEvent` passes `false` as the second argument — so
the claimed `(redraw=false, info_changed=true)` event never appears. -/
theorem debounced_notification_not_info_true :
    ¬ (((runCacheSeq pOk initState ⟨false⟩ [0]).2.2
        ++ (timerEvent (runCacheSeq pOk initState ⟨false⟩ [0]).2.1).2).filter
          Event.isHandlerChanged = [Event.handlerChanged false true]) := by
  decide

/-- Witness for C8 at index 4 starting from the initial state. -/
theorem cacheFrame_insert_before_release_witness :
    mapContains initState.imageCache 4 = false
  ∧ ((∃ l1 l2 l3 l4, (cacheFrame pOk initState 4).2 =
        l1 ++ [Event.cacheInsert 4] ++ l2 ++ [Event.latchRelease 4] ++ l3
          ++ [Event.registryRemove 4] ++ l4)
    ∧ mapLookup (cacheFrame pOk initState 4).1.imageCache 4 = some (some 7)) :=
  ⟨by decide,
    cacheFrame_insert_before_release pOk initState 4 (some 7) (by decide) (by decide)
      (by decide) (by decide)⟩

end videoHandler

namespace Interleave

/-- Appending a non-request event preserves a request-free trace. -/
theorem trace_append_ok (tr : List Event) (e0 : Event)
    (h : ∀ e ∈ tr, e.isRequestFrame = false) (h0 : e0.isRequestFrame = false) :
    ∀ e ∈ tr ++ [e0], e.isRequestFrame = false := by
  intro e he
  rcases List.mem_append.mp he with h1 | h1
  · exact h e h1
  · simp at h1; subst h1; exact h0

/-- The invariant is preserved by every worker step. -/
theorem inv_stepW (i : Int) (n : Nat) (s : Sys) (h : Inv i n s) :
    Inv i n (stepW i n s) := by
  obtain ⟨cache, registry, latchHeld, gate, regMutexR, reqF, reqIdx, cLoc,
    curImg, curIdx, lib, wpc, rpc, tr⟩ := s
  obtain ⟨hw, hr, hm, ht, hc⟩ := h
  cases wpc
  case req =>
    obtain ⟨hg, hl, hreg, hcc⟩ := hw
    subst hg; subst hl; subst hreg
    refine ⟨⟨rfl, rfl, rfl, hcc, rfl, rfl⟩, ?_, hm, ht, hc⟩
    cases rpc with
    | checkCache => trivial
    | checkReg => trivial
    | wait => trivial
    | promote2 => exact hr
    | load => exact absurd (show WPC.req = WPC.done from hr) (by decide)
    | setFlag => exact hr
    | done => exact hr
  case copy =>
    obtain ⟨hg, hl, hreg, hcc, hqi, hqf⟩ := hw
    subst hg; subst hl; subst hreg; subst hqf
    have hqi2 : reqIdx = i := hqi
    refine ⟨⟨rfl, rfl, rfl, hcc, hqi2, rfl, ?_⟩, ?_, hm, ht, hc⟩
    · show (if reqIdx = i then (some n : Image) else none) = some n
      rw [hqi2]; simp
    · cases rpc with
      | checkCache => trivial
      | checkReg => trivial
      | wait => trivial
      | promote2 => exact hr
      | load => exact absurd (show WPC.copy = WPC.done from hr) (by decide)
      | setFlag => exact hr
      | done => exact hr
  case insert =>
    obtain ⟨hg, hl, hreg, hcc, hqi, hqf, hcl⟩ := hw
    subst hg; subst hl; subst hreg; subst hqf; subst hcl
    have hqi2 : reqIdx = i := hqi
    refine ⟨⟨rfl, rfl, rfl, mapLookup_insert_self _ _ _, hqi2, rfl⟩, ?_, hm, ht, ?_⟩
    · cases rpc with
      | checkCache => trivial
      | checkReg => trivial
      | wait => trivial
      | promote2 => exact mapLookup_insert_self _ _ _
      | load => exact absurd (show WPC.insert = WPC.done from hr) (by decide)
      | setFlag => exact hr
      | done => exact hr
    · have hcc2 : mapContains cache i = false := hcc
      rcases hc with hc1 | hc1
      · have hc2 : cache = [] := hc1
        subst hc2
        right; rfl
      · have hc2 : cache = [(i, some n)] := hc1
        subst hc2
        exact absurd hcc2 (by simp [mapContains])
  case release =>
    obtain ⟨hg, hl, hreg, hlk, hqi, hqf⟩ := hw
    subst hg; subst hl; subst hreg; subst hqf
    have hqi2 : reqIdx = i := hqi
    refine ⟨⟨rfl, rfl, rfl, hlk, hqi2, rfl⟩, ?_, hm, ht, hc⟩
    cases rpc with
    | checkCache => trivial
    | checkReg => trivial
    | wait => trivial
    | promote2 => exact hr
    | load => exact absurd (show WPC.release = WPC.done from hr) (by decide)
    | setFlag => exact hr
    | done => exact hr
  case deregister =>
    obtain ⟨hg, hl, hreg, hlk, hqi, hqf⟩ := hw
    subst hg; subst hl; subst hreg; subst hqf
    have hqi2 : reqIdx = i := hqi
    cases regMutexR
    case true => exact ⟨⟨rfl, rfl, rfl, hlk, hqi2, rfl⟩, hr, hm, ht, hc⟩
    case false =>
      refine ⟨⟨rfl, rfl, ?_, hlk, hqi2, rfl⟩, ?_, hm, ht, hc⟩
      · show ([i] : List Int).erase i = []
        rw [List.erase_cons_head]
      · cases rpc with
        | checkCache => trivial
        | checkReg => trivial
        | wait => trivial
        | promote2 => exact hr
        | load => rfl
        | setFlag => exact hr
        | done => exact hr
  case done => exact ⟨hw, hr, hm, ht, hc⟩

/-- The invariant is preserved by every renderer step. -/
theorem inv_stepR (i : Int) (n : Nat) (s : Sys) (h : Inv i n s) :
    Inv i n (stepR i s) := by
  obtain ⟨cache, registry, latchHeld, gate, regMutexR, reqF, reqIdx, cLoc,
    curImg, curIdx, lib, wpc, rpc, tr⟩ := s
  obtain ⟨hw, hr, hm, ht, hc⟩ := h
  cases rpc
  case checkCache =>
    simp only [stepR]
    rcases hlook : mapLookup cache i with _ | img
    · exact ⟨hw, trivial, hm, trace_append_ok tr _ ht rfl, hc⟩
    · rcases hc with hc1 | hc1
      · have hc2 : cache = [] := hc1
        subst hc2
        exact absurd hlook (by simp [mapLookup])
      · have hc2 : cache = [(i, some n)] := hc1
        subst hc2
        have h3 : (some (some n) : Option Image) = some img := by
          have h4 := hlook
          simp [mapLookup] at h4
          rw [h4]
        have himg : img = some n := by
          injection h3 with h5
          exact h5.symm
        subst himg
        exact ⟨hw, ⟨rfl, rfl⟩, hm, trace_append_ok tr _ ht rfl, Or.inr rfl⟩
  case checkReg =>
    cases wpc
    case done =>
      have hreg : registry = [] := hw.2.2.1
      subst hreg
      exact ⟨hw, rfl, hm, trace_append_ok tr _ ht rfl, hc⟩
    case req =>
      have hreg : registry = [i] := hw.2.2.1
      subst hreg
      have hct : (([i] : List Int).contains i) = true := by simp
      simp only [stepR]
      rw [if_pos hct]
      exact ⟨hw, trivial, rfl, trace_append_ok tr _ ht rfl, hc⟩
    case copy =>
      have hreg : registry = [i] := hw.2.2.1
      subst hreg
      have hct : (([i] : List Int).contains i) = true := by simp
      simp only [stepR]
      rw [if_pos hct]
      exact ⟨hw, trivial, rfl, trace_append_ok tr _ ht rfl, hc⟩
    case insert =>
      have hreg : registry = [i] := hw.2.2.1
      subst hreg
      have hct : (([i] : List Int).contains i) = true := by simp
      simp only [stepR]
      rw [if_pos hct]
      exact ⟨hw, trivial, rfl, trace_append_ok tr _ ht rfl, hc⟩
    case release =>
      have hreg : registry = [i] := hw.2.2.1
      subst hreg
      have hct : (([i] : List Int).contains i) = true := by simp
      simp only [stepR]
      rw [if_pos hct]
      exact ⟨hw, trivial, rfl, trace_append_ok tr _ ht rfl, hc⟩
    case deregister =>
      have hreg : registry = [i] := hw.2.2.1
      subst hreg
      have hct : (([i] : List Int).contains i) = true := by simp
      simp only [stepR]
      rw [if_pos hct]
      exact ⟨hw, trivial, rfl, trace_append_ok tr _ ht rfl, hc⟩
  case wait =>
    cases latchHeld
    case true => exact ⟨hw, hr, hm, ht, hc⟩
    case false =>
      cases wpc
      case req => exact absurd (show (false : Bool) = true from hw.2.1) (by decide)
      case copy => exact absurd (show (false : Bool) = true from hw.2.1) (by decide)
      case insert => exact absurd (show (false : Bool) = true from hw.2.1) (by decide)
      case release => exact absurd (show (false : Bool) = true from hw.2.1) (by decide)
      case deregister =>
        exact ⟨hw, hw.2.2.2.1, rfl, trace_append_ok tr _ ht rfl, hc⟩
      case done =>
        exact ⟨hw, hw.2.2.2.1, rfl, trace_append_ok tr _ ht rfl, hc⟩
  case promote2 =>
    have hr2 : mapLookup cache i = some (some n) := hr
    simp only [stepR]
    rw [hr2]
    exact ⟨hw, ⟨rfl, rfl⟩, hm, trace_append_ok tr _ ht rfl, hc⟩
  case load =>
    have hwd : wpc = WPC.done := hr
    subst hwd
    obtain ⟨hg, hl, hreg, hlk, hqi, hqf⟩ := hw
    subst hqf
    have hqi2 : reqIdx = i := hqi
    simp only [stepR, hqi2]
    rw [if_pos trivial]
    exact ⟨⟨hg, hl, hreg, hlk, rfl, rfl⟩, ⟨rfl, rfl⟩, hm, ht, hc⟩
  case setFlag =>
    obtain ⟨hcx, hci⟩ := hr
    have hcx2 : curIdx = i := hcx
    have hci2 : curImg = some n := hci
    refine ⟨hw, ⟨hcx2, hci2, ?_⟩, hm, trace_append_ok tr _ ht rfl, hc⟩
    show decide (¬ curIdx = i) = false
    rw [hcx2]
    simp
  case done => exact ⟨hw, hr, hm, ht, hc⟩

/-- The invariant is preserved by every scheduled step. -/
theorem inv_step (i : Int) (n : Nat) (b : Bool) (s : Sys) (h : Inv i n s) :
    Inv i n (step i n b s) := by
  cases b
  · exact inv_stepR i n s h
  · exact inv_stepW i n s h

/-- The invariant holds in the initial configuration. -/
theorem inv_init (i : Int) (n : Nat) : Inv i n (initSys i) := by
  refine ⟨⟨rfl, rfl, rfl, rfl⟩, trivial, rfl, ?_, Or.inl rfl⟩
  intro e he
  cases he

/-- The invariant holds after any schedule. -/
theorem inv_runSched (i : Int) (n : Nat) (sched : List Bool) :
    ∀ s : Sys, Inv i n s → Inv i n (runSched i n sched s) := by
  induction sched with
  | nil => intro s h; exact h
  | cons b rest ih => intro s h; exact ih _ (inv_step i n b s h)

end Interleave

namespace Interleave

/-- C9 (amended): with a worker registered as caching frame `i` (and a
producer that decodes `i` successfully), for every interleaving the
renderer performs no foreground decode of its own; if it has just passed
the latch wait it finds the frame in the cache; when its `drawFrame`
finishes, the current-frame slot holds the decoded frame; and a renderer
at the latch wait makes no progress while the worker still holds the
latch.  (The renderer is only guaranteed to block on the latch when `i`
is still registered at its in-flight check, not at `drawFrame` entry.) -/
theorem drawFrame_inflight_wait (i : Int) (n : Nat) (sched : List Bool)
    (_hpos : 0 ≤ i) :
    (∀ e ∈ (runSched i n sched (initSys i)).rTrace, e.isRequestFrame = false)
  ∧ ((runSched i n sched (initSys i)).rpc = RPC.promote2 →
      mapLookup (runSched i n sched (initSys i)).cache i = some (some n))
  ∧ ((runSched i n sched (initSys i)).rpc = RPC.done →
      (runSched i n sched (initSys i)).currentImageIdx = i
        ∧ (runSched i n sched (initSys i)).currentImage = some n)
  ∧ (∀ s : Sys, s.rpc = RPC.wait → s.latchHeld = true → stepR i s = s) := by
  obtain ⟨hw, hr, hm, ht, hc⟩ := inv_runSched i n sched (initSys i) (inv_init i n)
  refine ⟨ht, ?_, ?_, ?_⟩
  · intro hp
    unfold rShape at hr
    rw [hp] at hr
    exact hr
  · intro hp
    unfold rShape at hr
    rw [hp] at hr
    exact ⟨hr.1, hr.2.1⟩
  · intro s hrp hl
    unfold stepR
    rw [hrp, hl]
    rfl

/-- Witness for C9 with `i = 9`, image 5, on a schedule where the
renderer really waits on the latch. -/
theorem drawFrame_inflight_wait_witness :
    (0 : Int) ≤ 9
  ∧ ((runSched 9 5 schedWait (initSys 9)).currentImageIdx = 9
      ∧ (runSched 9 5 schedWait (initSys 9)).currentImage = some 5)
  ∧ Event.latchWait 9 ∈ (runSched 9 5 schedWait (initSys 9)).rTrace :=
  ⟨by decide,
    (drawFrame_inflight_wait 9 5 schedWait (by decide)).2.2.1 (by decide),
    by decide⟩

/-- C9 counterexample: the worker is registered as caching frame 9 when
the renderer enters `drawFrame 9`, yet under this interleaving the worker
finishes between the renderer's cache miss and its registry check, so the
renderer completes without ever touching the latch (and promotes the
frame from the shared decode buffer, not from the cache). -/
theorem drawFrame_inflight_no_latchWait :
    (initSys 9).registry.contains 9 = true
  ∧ (runSched 9 5 schedSkip (initSys 9)).wpc = WPC.done
  ∧ (runSched 9 5 schedSkip (initSys 9)).rpc = RPC.done
  ∧ (runSched 9 5 schedSkip (initSys 9)).currentImageIdx = 9
  ∧ Event.latchWait 9 ∉ (runSched 9 5 schedSkip (initSys 9)).rTrace
  ∧ (runSched 9 5 schedSkip (initSys 9)).rTrace
      = [Event.cacheLookup 9, Event.registryLookup 9, Event.drawImage] := by
  decide

end Interleave
